import Mathlib

/-!
Verification of the raspi-alarm repository (Python) against its
natural-language specification, via a shallow embedding in Lean 4.

Embedded components:
* `alarm/control.py` — `AlarmDisplay.write_image` wire packing,
  `AlarmDisplay.set_dim_level`, `AlarmBuzzer.play_melody` /
  `thread_play_beep` / `stop` (as an atomic-critical-section model);
* `alarm/loop.py` — `CursorPos.clamp` / `CursorPos.wrap` and the enum
  position classes, the menu/button state machine of `alarm_loop`, and the
  alarm trigger / auto-stop logic of `alarm_loop`.
-/

namespace RaspiAlarm

/-! ## Cursor positions (`alarm/loop.py`, `CursorPos` and its subclasses)

`MainPos` has values 0..2, `SettingsPos` 0..2, `AlarmTimePos` 0..3.
`clamp` is `max(cls.min(), min(cls.max(), value))`;
`wrap` is `((value - cls.min()) % range_size) + cls.min()` with Python `%`,
which for a positive modulus agrees with Lean's `Int.emod`. -/

/-- The three menu screens of `MenuState` in `alarm/loop.py`. -/
inductive Screen where
  | main
  | settings
  | setAlarmTime
deriving DecidableEq, Repr

/-- `cls.min()` of the cursor-position enum attached to each screen:
all three enums start at 0. -/
def posMin : Screen → Int
  | _ => 0

/-- `cls.max()` of the cursor-position enum attached to each screen:
`MainPos.SET_ALARM_TIME = 2`, `SettingsPos.BACK = 2`, `AlarmTimePos.BACK = 3`. -/
def posMax : Screen → Int
  | .main => 2
  | .settings => 2
  | .setAlarmTime => 3

/-- `CursorPos.clamp`: `max(cls.min(), min(cls.max(), value))`. -/
def posClamp (scr : Screen) (value : Int) : Int :=
  max (posMin scr) (min (posMax scr) value)

/-- `CursorPos.wrap`: `((value - cls.min()) % range_size) + cls.min()`,
`range_size = cls.max() - cls.min() + 1`. -/
def posWrap (scr : Screen) (value : Int) : Int :=
  ((value - posMin scr) % (posMax scr - posMin scr + 1)) + posMin scr

/-! ## Display wire packing (`alarm/control.py`, `AlarmDisplay.write_image`)

The panel is WIDTH = 128 by HEIGHT = 64, PAGES = HEIGHT / 8 = 8.  The
1-bit image is row-major: pixel (x, y) sits at index `x + y * WIDTH` of
`pixel_data` (a set pixel contributes 1, a clear pixel 0).  The packing
loop is

    for p in range(PAGES):
      for x in range(WIDTH):
        for page_col in range(8):
          pixel = pixel_data[x + (p * 8 + page_col) * WIDTH]
          buffer[x + p * WIDTH] |= pixel << page_col
-/

def WIDTH : Nat := 128
def HEIGHT : Nat := 64
def PAGES : Nat := HEIGHT / 8

/-- One byte of the wire buffer: the inner `for page_col in range(8)` loop of
`write_image`, accumulating `pixel << page_col` into the byte with `|=`.
`pix i` is true when `pixel_data[i] = 1`. -/
def packByte (pix : Nat → Bool) (p x : Nat) : Nat :=
  (List.range 8).foldl
    (fun acc page_col =>
      acc ||| ((if pix (x + (p * 8 + page_col) * WIDTH) then 1 else 0) <<< page_col))
    0

/-- The full wire buffer built by `write_image`: `WIDTH * PAGES` bytes,
byte at position `p * WIDTH + x` (equivalently `x + p * WIDTH`) given by
`packByte`. -/
def writeImageBuffer (pix : Nat → Bool) : List Nat :=
  (List.range (PAGES * WIDTH)).map (fun i => packByte pix (i / WIDTH) (i % WIDTH))

/-- The unpacking rule of spec §4.1: pixel (x, y) is bit `y % 8` of the
buffer byte at position `(y / 8) * WIDTH + x`. -/
def unpackPixel (buffer : List Nat) (x y : Nat) : Bool :=
  Nat.testBit (buffer.getD ((y / 8) * WIDTH + x) 0) (y % 8)

/-- Bit `m` of the number 1. -/
lemma testBit_one_nat (m : Nat) : Nat.testBit 1 m = decide (m = 0) := by
  cases m with
  | zero => rfl
  | succ n =>
    rw [show (1 : Nat) = 2 ^ 0 by rfl, Nat.testBit_two_pow_of_ne (by omega)]
    simp

/-- Bit `i` of `(if b then 1 else 0) <<< k` is set exactly when `i = k` and
`b` is true. -/
lemma testBit_cond_shift (b : Bool) (k i : Nat) :
    Nat.testBit ((if b then 1 else 0) <<< k) i = (b && decide (i = k)) := by
  cases b
  · simp
  · simp only [if_pos, Bool.true_and]
    rw [Nat.testBit_shiftLeft, testBit_one_nat]
    rcases Nat.lt_or_ge i k with h | h
    · have h1 : ¬ k ≤ i := Nat.not_le.mpr h
      have h2 : i ≠ k := Nat.ne_of_lt h
      simp [h1, h2]
    · by_cases h2 : i = k
      · subst h2; simp
      · have h3 : i - k ≠ 0 := by omega
        simp [h, h2, h3]

/-- Bit `col` of the packed byte is exactly the pixel at column `x`,
row `p * 8 + col`. -/
lemma testBit_packByte (pix : Nat → Bool) (p x col : Nat) (h : col < 8) :
    Nat.testBit (packByte pix p x) col = pix (x + (p * 8 + col) * WIDTH) := by
  have hrange : List.range 8 = [0, 1, 2, 3, 4, 5, 6, 7] := by rfl
  unfold packByte
  rw [hrange]
  simp only [List.foldl_cons, List.foldl_nil]
  simp only [Nat.testBit_or, testBit_cond_shift, Nat.zero_testBit]
  interval_cases col <;> simp

/-- `getD` on the wire buffer, for an in-range index. -/
lemma writeImageBuffer_getD (pix : Nat → Bool) (i : Nat) (h : i < PAGES * WIDTH) :
    (writeImageBuffer pix).getD i 0 = packByte pix (i / WIDTH) (i % WIDTH) := by
  unfold writeImageBuffer
  rw [List.getD_eq_getElem?_getD, List.getElem?_map, List.getElem?_range h]
  rfl

/-- C1: the wire buffer produced by `write_image` has `WIDTH * PAGES` bytes;
the byte at position `page * WIDTH + x` packs the 8 pixels of column `x`,
rows `page*8 .. page*8+7`, with row `page*8 + bit` at bit position `bit`
(LSB = topmost row of the band); and unpacking by this rule reproduces the
original 1-bit image exactly. -/
theorem write_image_packing_roundtrip (pix : Nat → Bool) :
    (writeImageBuffer pix).length = WIDTH * PAGES ∧
    (∀ p x bit, p < PAGES → x < WIDTH → bit < 8 →
      Nat.testBit ((writeImageBuffer pix).getD (p * WIDTH + x) 0) bit
        = pix (x + (p * 8 + bit) * WIDTH)) ∧
    (∀ x y, x < WIDTH → y < HEIGHT →
      unpackPixel (writeImageBuffer pix) x y = pix (x + y * WIDTH)) := by
  refine ⟨?_, ?_, ?_⟩
  · simp [writeImageBuffer, Nat.mul_comm]
  · intro p x bit hp hx hbit
    have hi : p * WIDTH + x < PAGES * WIDTH := by
      simp only [PAGES, WIDTH, HEIGHT] at *; omega
    rw [writeImageBuffer_getD pix _ hi]
    have hdiv : (p * WIDTH + x) / WIDTH = p := by
      simp only [WIDTH] at *; omega
    have hmod : (p * WIDTH + x) % WIDTH = x := by
      simp only [WIDTH] at *; omega
    rw [hdiv, hmod, testBit_packByte pix p x bit hbit]
  · intro x y hx hy
    unfold unpackPixel
    have hi : (y / 8) * WIDTH + x < PAGES * WIDTH := by
      simp only [PAGES, WIDTH, HEIGHT] at *; omega
    rw [writeImageBuffer_getD pix _ hi]
    have hdiv : ((y / 8) * WIDTH + x) / WIDTH = y / 8 := by
      simp only [WIDTH] at *; omega
    have hmod : ((y / 8) * WIDTH + x) % WIDTH = x := by
      simp only [WIDTH] at *; omega
    rw [hdiv, hmod, testBit_packByte pix (y / 8) x (y % 8) (Nat.mod_lt y (by omega))]
    have hy : y / 8 * 8 + y % 8 = y := by omega
    rw [hy]

/-- Witness for C1 at a concrete pixel map and coordinate. -/
theorem write_image_packing_roundtrip_witness :
    unpackPixel (writeImageBuffer (fun i => decide (i % 7 = 0))) 5 13
      = decide ((5 + 13 * WIDTH) % 7 = 0) :=
  (write_image_packing_roundtrip (fun i => decide (i % 7 = 0))).2.2 5 13
    (by decide) (by decide)

/-- `posClamp` lands inside `[posMin, posMax]`. -/
lemma posClamp_bounds (scr : Screen) (v : Int) :
    posMin scr ≤ posClamp scr v ∧ posClamp scr v ≤ posMax scr := by
  cases scr <;> simp only [posClamp, posMin, posMax] <;> omega

/-- `posWrap` lands inside `[posMin, posMax]`. -/
lemma posWrap_bounds (scr : Screen) (v : Int) :
    posMin scr ≤ posWrap scr v ∧ posWrap scr v ≤ posMax scr := by
  cases scr <;> simp only [posWrap, posMin, posMax] <;> omega

/-- C5: for every screen and every integer input, `clamp` returns a value
inside `[min, max]` of that screen's option set, and `wrap` returns a value
inside `[min, max]` no matter how far out of range the input is. -/
theorem clamp_wrap_in_range (scr : Screen) (v : Int) :
    posMin scr ≤ posClamp scr v ∧ posClamp scr v ≤ posMax scr ∧
    posMin scr ≤ posWrap scr v ∧ posWrap scr v ≤ posMax scr :=
  ⟨(posClamp_bounds scr v).1, (posClamp_bounds scr v).2,
   (posWrap_bounds scr v).1, (posWrap_bounds scr v).2⟩

/-! ## Menu / button state machine (`alarm/loop.py`, button handling in
`alarm_loop`, lines 151-251)

Cursor values are the integer values of the `IntEnum` position classes:
`MainPos.NO_SELECTION = 0`, `MainPos.SETTINGS = 1`, `MainPos.SET_ALARM_TIME = 2`;
`SettingsPos.SET_BRIGHTNESS = 0`, `SettingsPos.DISPLAY_OFF = 1`,
`SettingsPos.BACK = 2`; `AlarmTimePos.HOUR = 0`, `AlarmTimePos.MINUTE = 1`,
`AlarmTimePos.AM_PM = 2`, `AlarmTimePos.BACK = 3`.

The display brightness (`AlarmDisplay._dim`, mutated through
`set_dim_level`, which clamps its argument with `max(0, min(1, level))`)
and the alarm time tuple are part of the state because the in-select-mode
right/left handlers edit them. -/

/-- The meridiem component of the alarm-time tuple (`"AM"` / `"PM"`). -/
inductive Meridiem where
  | am
  | pm
deriving DecidableEq, Repr

/-- `"PM" if alarm_time[2] == "AM" else "AM"`. -/
def flipMeridiem : Meridiem → Meridiem
  | .am => .pm
  | .pm => .am

/-- The state mutated by the button handlers of `alarm_loop`: the menu
screen (`state`), the cursor, the select-mode flag, the display dim level
and the alarm time. -/
structure MenuUI where
  screen : Screen
  cursor : Int
  selectMode : Bool
  dim : Int
  alarmHour : Int
  alarmMinute : Int
  alarmMer : Meridiem
deriving DecidableEq, Repr

/-- The three button events that drive the menu state machine.  The
`enable_alarm` button never touches the menu state, and a `select` press
while the melody thread is alive only stops the melody (no menu change),
so neither appears here. -/
inductive MenuEvent where
  | select
  | right
  | left
deriving DecidableEq, Repr

/-- `AlarmDisplay.set_dim_level`: `level = max(0, min(1, level))` before
being stored in `_dim`. -/
def set_dim_level (level : Int) : Int :=
  max 0 (min 1 level)

/-- The `select` handler (lines 156-185 of `alarm_loop`), for a press with
no melody playing. -/
def pressSelect (s : MenuUI) : MenuUI :=
  match s.screen with
  | .main =>
    if s.cursor ≠ 0 then
      let scr := if s.cursor = 1 then Screen.settings else Screen.setAlarmTime
      { s with screen := scr, cursor := posMin scr }
    else s
  | .settings =>
    if s.cursor = 2 then
      { s with screen := .main, cursor := 0 }
    else if s.cursor = 0 ∨ s.cursor = 1 then
      { s with selectMode := !s.selectMode }
    else s
  | .setAlarmTime =>
    if s.cursor = 3 then
      { s with screen := .main, cursor := 0 }
    else
      { s with selectMode := !s.selectMode }

/-- The `right` handler (lines 199-224 of `alarm_loop`). -/
def pressRight (s : MenuUI) : MenuUI :=
  if !s.selectMode then
    match s.screen with
    | .main => { s with cursor := posWrap .main (s.cursor + 1) }
    | scr => { s with cursor := posClamp scr (s.cursor + 1) }
  else
    match s.screen with
    | .main => s
    | .settings =>
      if s.cursor = 0 then { s with dim := set_dim_level (s.dim + 1) } else s
    | .setAlarmTime =>
      if s.cursor = 0 then
        let hour := (s.alarmHour + 1) % 12
        { s with alarmHour := if hour = 0 then 12 else hour }
      else if s.cursor = 1 then
        { s with alarmMinute := (s.alarmMinute + 1) % 60 }
      else if s.cursor = 2 then
        { s with alarmMer := flipMeridiem s.alarmMer }
      else s

/-- The `left` handler (lines 226-251 of `alarm_loop`). -/
def pressLeft (s : MenuUI) : MenuUI :=
  if !s.selectMode then
    match s.screen with
    | .main => { s with cursor := posWrap .main (s.cursor - 1) }
    | scr => { s with cursor := posClamp scr (s.cursor - 1) }
  else
    match s.screen with
    | .main => s
    | .settings =>
      if s.cursor = 0 then { s with dim := set_dim_level (s.dim - 1) } else s
    | .setAlarmTime =>
      if s.cursor = 0 then
        let hour := (s.alarmHour - 1) % 12
        { s with alarmHour := if hour = 0 then 12 else hour }
      else if s.cursor = 1 then
        { s with alarmMinute := (s.alarmMinute - 1) % 60 }
      else if s.cursor = 2 then
        { s with alarmMer := flipMeridiem s.alarmMer }
      else s

/-- One step of the menu state machine. -/
def handleEvent : MenuEvent → MenuUI → MenuUI
  | .select => pressSelect
  | .right => pressRight
  | .left => pressLeft

/-- Folding a finite sequence of button events over a state. -/
def runEvents (evs : List MenuEvent) (s : MenuUI) : MenuUI :=
  evs.foldl (fun s e => handleEvent e s) s

/-- The initial menu state of `alarm_loop`:
`state = MAIN`, `cursor = NO_SELECTION`, `in_select_mode = False`,
`display._dim = 0`, `alarm_time = (10, 0, "AM")`. -/
def initialMenuUI : MenuUI :=
  { screen := .main, cursor := 0, selectMode := false, dim := 0
    alarmHour := 10, alarmMinute := 0, alarmMer := .am }

/-- C6: `select` on Main with a non-NoSelection cursor enters the
corresponding sub-screen (cursor 1 = Settings, cursor 2 = SetAlarmTime)
at that screen's minimum cursor position; `select` on a sub-screen's Back
position returns to Main with cursor = NoSelection; `select` on any other
sub-screen position flips `in_select_mode` and changes nothing else. -/
theorem select_transitions (s : MenuUI)
    (hlo : posMin s.screen ≤ s.cursor) (hhi : s.cursor ≤ posMax s.screen) :
    (s.screen = .main → s.cursor ≠ 0 →
      pressSelect s =
        { s with
          screen := if s.cursor = 1 then Screen.settings else Screen.setAlarmTime
          cursor := posMin (if s.cursor = 1 then Screen.settings else Screen.setAlarmTime) }) ∧
    (s.screen = .settings → s.cursor = 2 →
      pressSelect s = { s with screen := .main, cursor := 0 }) ∧
    (s.screen = .setAlarmTime → s.cursor = 3 →
      pressSelect s = { s with screen := .main, cursor := 0 }) ∧
    (s.screen = .settings → s.cursor ≠ 2 →
      pressSelect s = { s with selectMode := !s.selectMode }) ∧
    (s.screen = .setAlarmTime → s.cursor ≠ 3 →
      pressSelect s = { s with selectMode := !s.selectMode }) := by
  refine ⟨?_, ?_, ?_, ?_, ?_⟩ <;> intro hscr hc
  · simp [pressSelect, hscr, hc]
  · simp [pressSelect, hscr, hc]
  · simp [pressSelect, hscr, hc]
  · have hor : s.cursor = 0 ∨ s.cursor = 1 := by
      simp only [posMin, posMax, hscr] at hlo hhi; omega
    rcases hor with h | h <;> simp [pressSelect, hscr, h]
  · simp [pressSelect, hscr, hc]

/-- Witness for C6: `select` on Settings at Back returns to Main with
cursor NoSelection. -/
theorem select_transitions_witness :
    pressSelect ⟨.settings, 2, false, 0, 10, 0, .am⟩
      = ⟨.main, 0, false, 0, 10, 0, .am⟩ :=
  (select_transitions ⟨.settings, 2, false, 0, 10, 0, .am⟩
    (by decide) (by decide)).2.1 rfl rfl

/-- Counterexample to C7: with the display at dim level 1, pressing `right`
while in select mode on Settings / SetBrightness leaves the level at 1; the
claimed toggle (level 1 becomes 0) is false. -/
theorem brightness_toggle_cex :
    ¬ (pressRight ⟨.settings, 0, true, 1, 10, 0, .am⟩).dim = 0 := by
  decide

/-- C7 (amended): pressing `right` while in select mode with the Settings
cursor on SetBrightness sets the level to 1 regardless of the current level
(0 becomes 1, 1 stays 1), and pressing `left` sets it to 0 (1 becomes 0,
0 stays 0): the edits saturate at the `set_dim_level` bounds rather than
toggling. -/
theorem brightness_saturates (s : MenuUI) (hscr : s.screen = .settings)
    (hcur : s.cursor = 0) (hsel : s.selectMode = true)
    (hdim : s.dim = 0 ∨ s.dim = 1) :
    (pressRight s).dim = 1 ∧ (pressLeft s).dim = 0 := by
  simp only [pressRight, pressLeft, hscr, hsel, hcur, set_dim_level]
  rcases hdim with h | h <;> simp [h]

/-- Witness for C7 (amended) at dim level 0. -/
theorem brightness_saturates_witness :
    (pressRight ⟨.settings, 0, true, 0, 10, 0, .am⟩).dim = 1 ∧
    (pressLeft ⟨.settings, 0, true, 0, 10, 0, .am⟩).dim = 0 :=
  brightness_saturates ⟨.settings, 0, true, 0, 10, 0, .am⟩ rfl rfl rfl (Or.inl rfl)

/-- C8: with the SetAlarmTime screen in select mode, `right`/`left` on the
Hour position wrap cyclically in 1..12 (12 increments to 1, 1 decrements
to 12, every other hour moves by exactly one) and leave the minute alone;
on the Minute position they wrap cyclically in 0..59 (59 increments to 0,
0 decrements to 59, every other minute moves by exactly one) and leave the
hour alone; the results stay in range. -/
theorem alarm_time_wrap (s : MenuUI) (hscr : s.screen = .setAlarmTime)
    (hsel : s.selectMode = true)
    (hh1 : 1 ≤ s.alarmHour) (hh2 : s.alarmHour ≤ 12)
    (hm1 : 0 ≤ s.alarmMinute) (hm2 : s.alarmMinute ≤ 59) :
    (s.cursor = 0 →
      ((pressRight s).alarmHour = if s.alarmHour = 12 then 1 else s.alarmHour + 1) ∧
      ((pressLeft s).alarmHour = if s.alarmHour = 1 then 12 else s.alarmHour - 1) ∧
      1 ≤ (pressRight s).alarmHour ∧ (pressRight s).alarmHour ≤ 12 ∧
      1 ≤ (pressLeft s).alarmHour ∧ (pressLeft s).alarmHour ≤ 12 ∧
      (pressRight s).alarmMinute = s.alarmMinute ∧
      (pressLeft s).alarmMinute = s.alarmMinute) ∧
    (s.cursor = 1 →
      ((pressRight s).alarmMinute = if s.alarmMinute = 59 then 0 else s.alarmMinute + 1) ∧
      ((pressLeft s).alarmMinute = if s.alarmMinute = 0 then 59 else s.alarmMinute - 1) ∧
      0 ≤ (pressRight s).alarmMinute ∧ (pressRight s).alarmMinute ≤ 59 ∧
      0 ≤ (pressLeft s).alarmMinute ∧ (pressLeft s).alarmMinute ≤ 59 ∧
      (pressRight s).alarmHour = s.alarmHour ∧
      (pressLeft s).alarmHour = s.alarmHour) := by
  constructor <;> intro hc <;>
    simp only [pressRight, pressLeft, hscr, hsel, hc] <;> simp <;>
    refine ⟨?_, ?_, ?_, ?_, ?_, ?_⟩ <;> (try split) <;> (try split) <;> omega

/-- Witness for C8: incrementing minute 59 wraps to 0 and decrementing
hour 1 wraps to 12. -/
theorem alarm_time_wrap_witness :
    (pressRight ⟨.setAlarmTime, 1, true, 0, 12, 59, .am⟩).alarmMinute = 0 ∧
    (pressLeft ⟨.setAlarmTime, 0, true, 0, 1, 30, .am⟩).alarmHour = 12 := by
  have h1 := (alarm_time_wrap ⟨.setAlarmTime, 1, true, 0, 12, 59, .am⟩
    rfl rfl (by decide) (by decide) (by decide) (by decide)).2 rfl
  have h2 := (alarm_time_wrap ⟨.setAlarmTime, 0, true, 0, 1, 30, .am⟩
    rfl rfl (by decide) (by decide) (by decide) (by decide)).1 rfl
  exact ⟨by simpa using h1.1, by simpa using h2.2.1⟩

/-- The cursor is a valid position of the given screen's option set. -/
def validCursor (scr : Screen) (c : Int) : Prop :=
  posMin scr ≤ c ∧ c ≤ posMax scr

/-- The cursor positions on which `select` toggles `in_select_mode`
(value-editing positions): none on Main, SetBrightness / DisplayOff on
Settings, Hour / Minute / AmPm on SetAlarmTime. -/
def editablePos : Screen → Int → Prop
  | .main, _ => False
  | .settings, c => c = 0 ∨ c = 1
  | .setAlarmTime, c => c = 0 ∨ c = 1 ∨ c = 2

/-- The reachability invariant of the menu state machine: the cursor is a
valid position of the active screen, and whenever `in_select_mode` is set
the cursor sits on a value-editing position (hence never on Main and never
on a Back position). -/
def MenuInv (s : MenuUI) : Prop :=
  validCursor s.screen s.cursor ∧ (s.selectMode = true → editablePos s.screen s.cursor)

/-- The initial state satisfies the invariant. -/
lemma menuInv_initial : MenuInv initialMenuUI := by
  refine ⟨⟨by decide, by decide⟩, by simp [initialMenuUI]⟩

/-- Every button event preserves the menu invariant. -/
lemma menuInv_handleEvent (e : MenuEvent) (s : MenuUI) (h : MenuInv s) :
    MenuInv (handleEvent e s) := by
  obtain ⟨scr, c, sm, d, ah, amn, mer⟩ := s
  obtain ⟨⟨hlo, hhi⟩, hsel⟩ := h
  cases e <;> cases scr <;> cases sm <;>
    simp_all only [MenuInv, validCursor, editablePos, handleEvent, pressSelect,
      pressRight, pressLeft, posMin, posMax, posWrap, posClamp,
      Bool.not_true, Bool.not_false, Bool.false_eq_true, Bool.true_eq_false,
      forall_const, false_implies, if_true, if_false, ite_true, ite_false] <;>
    (try simp only [Int.max_def, Int.min_def]) <;>
    (try split_ifs) <;>
    (try simp_all [editablePos]) <;>
    omega

/-- The invariant holds after any finite run from any invariant state. -/
lemma menuInv_runEvents (evs : List MenuEvent) (s : MenuUI) (h : MenuInv s) :
    MenuInv (runEvents evs s) := by
  induction evs generalizing s with
  | nil => exact h
  | cons e evs ih => exact ih _ (menuInv_handleEvent e s h)

/-- C10: starting from the initial menu state, after every finite sequence
of button events the cursor is a valid position of the active screen, and
`in_select_mode` is false whenever the active screen is Main — so every
entry into a sub-screen begins out of select mode. -/
theorem menu_reachable_invariant (evs : List MenuEvent) :
    validCursor (runEvents evs initialMenuUI).screen
      (runEvents evs initialMenuUI).cursor ∧
    ((runEvents evs initialMenuUI).screen = .main →
      (runEvents evs initialMenuUI).selectMode = false) := by
  have h := menuInv_runEvents evs initialMenuUI menuInv_initial
  refine ⟨h.1, fun hmain => ?_⟩
  cases hsm : (runEvents evs initialMenuUI).selectMode
  · rfl
  · have := h.2 hsm
    rw [hmain] at this
    exact absurd this (by simp [editablePos])

/-! ## Alarm trigger and auto-stop (`alarm/loop.py`, `alarm_loop`,
button-stop lines 145-154 and the "Do alarm" block lines 401-422)

Per tick the loop first handles the buttons (a `select` press — or an
`enable_alarm` press that disarms — while the melody thread is alive stops
and joins it), then evaluates

    if alarm_active and (hour, minute, am_pm) == alarm_time
        and not alarm_played_recently and state != MenuState.SET_ALARM_TIME:
      if not song_thread.is_alive(): <start melody thread>
      alarm_played_recently = True
      song_start_time = now
    elif (hour, minute, am_pm) != alarm_time:
      alarm_played_recently = False
      if song_start_time and (now - song_start_time).total_seconds() > 15 * 60
          and song_thread.is_alive():
        main_buzzer.stop(); song_thread.join(); song_start_time = None

Wall-clock instants are modelled as integer seconds; 15 minutes is 900. -/

/-- The alarm-related mutable state of `alarm_loop`:
`alarm_played_recently`, `song_thread.is_alive()`, `song_start_time`. -/
structure AlarmState where
  playedRecently : Bool
  songPlaying : Bool
  songStart : Option Int
deriving DecidableEq, Repr

/-- The per-tick inputs the alarm logic reads: `alarm_active`, whether
`(hour, minute, am_pm) == alarm_time`, whether the menu is inside the
SetAlarmTime screen, whether a button press stops the melody this tick,
and the wall-clock time in seconds. -/
structure AlarmTick where
  armed : Bool
  timeMatches : Bool
  inSetAlarm : Bool
  manualStop : Bool
  now : Int
deriving DecidableEq, Repr

/-- One render-loop tick of the alarm logic.  The second component is true
exactly when this tick starts melody playback (the thread-spawn under
`if not song_thread.is_alive()`). -/
def alarmTick (u : AlarmTick) (s : AlarmState) : AlarmState × Bool :=
  let s := if u.manualStop && s.songPlaying then { s with songPlaying := false } else s
  if u.armed && u.timeMatches && !s.playedRecently && !u.inSetAlarm then
    (⟨true, true, some u.now⟩, !s.songPlaying)
  else if !u.timeMatches then
    let s := { s with playedRecently := false }
    match s.songStart with
    | some t =>
      if u.now - t > 15 * 60 && s.songPlaying then
        ({ s with songPlaying := false, songStart := none }, false)
      else (s, false)
    | none => (s, false)
  else (s, false)

/-- Folding ticks over the alarm state. -/
def runAlarm (us : List AlarmTick) (s : AlarmState) : AlarmState :=
  us.foldl (fun s u => (alarmTick u s).1) s

/-- How many ticks of the run start melody playback. -/
def countStarts : List AlarmTick → AlarmState → Nat
  | [], _ => 0
  | u :: us, s =>
    (if (alarmTick u s).2 then 1 else 0) + countStarts us (alarmTick u s).1

/-- `runAlarm` unfolds one tick at a time. -/
lemma runAlarm_cons (u : AlarmTick) (us : List AlarmTick) (s : AlarmState) :
    runAlarm (u :: us) s = runAlarm us (alarmTick u s).1 := rfl

/-- A tick whose wall-clock still matches the alarm time neither starts
playback again nor clears `alarm_played_recently`, once the flag is set. -/
lemma alarmTick_no_start (u : AlarmTick) (s : AlarmState)
    (hp : s.playedRecently = true) (hm : u.timeMatches = true) :
    (alarmTick u s).2 = false ∧ ((alarmTick u s).1).playedRecently = true := by
  by_cases hms : u.manualStop && s.songPlaying <;> simp [alarmTick, hp, hm, hms]

/-- Once `alarm_played_recently` is set, no tick of a matching-time block
starts playback. -/
lemma countStarts_zero (us : List AlarmTick) (s : AlarmState)
    (hp : s.playedRecently = true) (h : ∀ u ∈ us, u.timeMatches = true) :
    countStarts us s = 0 := by
  induction us generalizing s with
  | nil => rfl
  | cons u us ih =>
    obtain ⟨h2, h1⟩ := alarmTick_no_start u s hp (h u (by simp))
    rw [countStarts, h2]
    simpa using ih _ h1 (fun v hv => h v (by simp [hv]))

/-- C2: over a consecutive block of ticks in which the alarm is armed, the
wall-clock matches the configured alarm time, and the menu is never inside
the SetAlarmTime screen, melody playback is started exactly once — on the
first tick of the block — not once per tick.  The block starts with
`alarm_played_recently` clear (the previous tick did not match, or the loop
just started) and with no melody playing. -/
theorem alarm_fires_once_per_block (us : List AlarmTick) (s : AlarmState)
    (hplayed : s.playedRecently = false) (hplaying : s.songPlaying = false)
    (hne : us ≠ [])
    (hblock : ∀ u ∈ us, u.armed = true ∧ u.timeMatches = true ∧ u.inSetAlarm = false) :
    countStarts us s = 1 := by
  cases us with
  | nil => exact absurd rfl hne
  | cons u us =>
    obtain ⟨ha, hm, hi⟩ := hblock u (by simp)
    have h1 : alarmTick u s = (⟨true, true, some u.now⟩, true) := by
      simp [alarmTick, ha, hm, hi, hplayed, hplaying]
    have h0 : countStarts us (⟨true, true, some u.now⟩ : AlarmState) = 0 :=
      countStarts_zero us _ rfl (fun v hv => (hblock v (by simp [hv])).2.1)
    rw [countStarts, h1]
    simp [h0]

/-- Witness for C2: a two-tick matching block starts playback once. -/
theorem alarm_fires_once_per_block_witness :
    countStarts [⟨true, true, false, false, 100⟩, ⟨true, true, false, true, 101⟩]
      ⟨false, false, none⟩ = 1 :=
  alarm_fires_once_per_block _ _ rfl rfl (by simp) (by decide)

/-- Ticks whose wall-clock still matches the alarm time leave the
post-start alarm state untouched. -/
lemma runAlarm_match_id (a : List AlarmTick) (st : Option Int)
    (ha : ∀ u ∈ a, u.timeMatches = true ∧ u.manualStop = false) :
    runAlarm a ⟨true, true, st⟩ = ⟨true, true, st⟩ := by
  induction a with
  | nil => rfl
  | cons u a ih =>
    obtain ⟨hm, hs⟩ := ha u (by simp)
    have h1 : alarmTick u ⟨true, true, st⟩ = (⟨true, true, st⟩, false) := by
      simp [alarmTick, hm, hs]
    rw [runAlarm_cons, h1]
    exact ih (fun v hv => ha v (by simp [hv]))

/-- While every tick stays at or before `T + 15 * 60`, non-matching ticks
never force-stop the playback that started at `T`. -/
lemma runAlarm_safe (b : List AlarmTick) (T : Int) (p : Bool)
    (hb : ∀ u ∈ b, u.timeMatches = false ∧ u.manualStop = false ∧ u.now ≤ T + 15 * 60) :
    (runAlarm b ⟨p, true, some T⟩).songPlaying = true ∧
    (runAlarm b ⟨p, true, some T⟩).songStart = some T := by
  induction b generalizing p with
  | nil => exact ⟨rfl, rfl⟩
  | cons u b ih =>
    obtain ⟨hm, hs, hn⟩ := hb u (by simp)
    have h1 : alarmTick u ⟨p, true, some T⟩ = (⟨false, true, some T⟩, false) := by
      simp only [alarmTick, hm, hs]
      simp
      omega
    rw [runAlarm_cons, h1]
    exact ih false (fun v hv => hb v (by simp [hv]))

/-- A stopped melody stays stopped through non-matching ticks. -/
lemma alarmTick_stopped (u : AlarmTick) (s : AlarmState)
    (hps : s.songPlaying = false) (hm : u.timeMatches = false) :
    ((alarmTick u s).1).songPlaying = false := by
  rcases hss : s.songStart with _ | t <;> simp [alarmTick, hm, hps, hss]

/-- A stopped melody stays stopped through a run of non-matching ticks. -/
lemma runAlarm_stopped (b : List AlarmTick) (s : AlarmState)
    (hps : s.songPlaying = false) (hb : ∀ u ∈ b, u.timeMatches = false) :
    (runAlarm b s).songPlaying = false := by
  induction b generalizing s with
  | nil => exact hps
  | cons u b ih =>
    rw [runAlarm_cons]
    exact ih _ (alarmTick_stopped u s hps (hb u (by simp)))
      (fun v hv => hb v (by simp [hv]))

/-- As soon as a non-matching tick sees the clock past `T + 15 * 60`, the
playback that started at `T` is force-stopped, and stays stopped. -/
lemma runAlarm_stops (b : List AlarmTick) (T : Int) (p : Bool)
    (hb : ∀ u ∈ b, u.timeMatches = false ∧ u.manualStop = false)
    (hex : ∃ u ∈ b, u.now > T + 15 * 60) :
    (runAlarm b ⟨p, true, some T⟩).songPlaying = false := by
  induction b generalizing p with
  | nil =>
    rcases hex with ⟨u, hu, _⟩
    exact absurd hu (by simp)
  | cons u b ih =>
    obtain ⟨hm, hs⟩ := hb u (by simp)
    by_cases hn : u.now > T + 15 * 60
    · have h1 : alarmTick u ⟨p, true, some T⟩ = (⟨false, false, none⟩, false) := by
        simp only [alarmTick, hm, hs]
        simp
        omega
      rw [runAlarm_cons, h1]
      exact runAlarm_stopped b _ rfl (fun v hv => (hb v (by simp [hv])).1)
    · have h1 : alarmTick u ⟨p, true, some T⟩ = (⟨false, true, some T⟩, false) := by
        simp only [alarmTick, hm, hs]
        simp
        omega
      rw [runAlarm_cons, h1]
      apply ih false (fun v hv => hb v (by simp [hv]))
      rcases hex with ⟨v, hv, hvn⟩
      rcases (by simpa using hv : v = u ∨ v ∈ b) with rfl | hv'
      · exact absurd hvn hn
      · exact ⟨v, hv', hvn⟩

/-- C9: if a tick starts melody playback at wall-clock time `T = u0.now`
(alarm armed, time matching, menu outside SetAlarmTime, nothing playing
yet) and no manual stop occurs afterwards, then the render loop never
force-stops the playback at any tick at or before `T + 15` minutes, and
force-stops it at the first non-matching tick after `T + 15` minutes.
`a` is the remainder of the matching minute, `b` the non-matching ticks
that follow. -/
theorem alarm_auto_stop (u0 : AlarmTick) (s0 : AlarmState) (a b : List AlarmTick)
    (h0p : s0.playedRecently = false) (h0s : s0.songPlaying = false)
    (h0a : u0.armed = true) (h0m : u0.timeMatches = true) (h0i : u0.inSetAlarm = false)
    (ha : ∀ u ∈ a, u.timeMatches = true ∧ u.manualStop = false)
    (hb : ∀ u ∈ b, u.timeMatches = false ∧ u.manualStop = false) :
    alarmTick u0 s0 = (⟨true, true, some u0.now⟩, true) ∧
    ((∀ u ∈ b, u.now ≤ u0.now + 15 * 60) →
      (runAlarm (a ++ b) ⟨true, true, some u0.now⟩).songPlaying = true) ∧
    ((∃ u ∈ b, u.now > u0.now + 15 * 60) →
      (runAlarm (a ++ b) ⟨true, true, some u0.now⟩).songPlaying = false) := by
  have hsplit : runAlarm (a ++ b) ⟨true, true, some u0.now⟩
      = runAlarm b ⟨true, true, some u0.now⟩ := by
    rw [runAlarm, List.foldl_append]
    rw [show (a.foldl (fun s u => (alarmTick u s).1) ⟨true, true, some u0.now⟩)
        = runAlarm a ⟨true, true, some u0.now⟩ from rfl]
    rw [runAlarm_match_id a _ ha]
    rfl
  refine ⟨?_, ?_, ?_⟩
  · simp [alarmTick, h0a, h0m, h0i, h0p, h0s]
  · intro hnow
    rw [hsplit]
    exact (runAlarm_safe b u0.now true
      (fun u hu => ⟨(hb u hu).1, (hb u hu).2, hnow u hu⟩)).1
  · intro hex
    rw [hsplit]
    exact runAlarm_stops b u0.now true hb hex

/-- Witness for C9: playback starting at time 0 survives a tick at time
500 and is force-stopped by a non-matching tick at time 1000. -/
theorem alarm_auto_stop_witness :
    (runAlarm ([⟨true, true, false, false, 30⟩] ++
        [⟨true, false, false, false, 500⟩, ⟨true, false, false, false, 1000⟩])
      ⟨true, true, some (0 : Int)⟩).songPlaying = false :=
  (alarm_auto_stop ⟨true, true, false, false, 0⟩ ⟨false, false, none⟩
    [⟨true, true, false, false, 30⟩]
    [⟨true, false, false, false, 500⟩, ⟨true, false, false, false, 1000⟩]
    rfl rfl rfl rfl rfl (by decide) (by decide)).2.2
    ⟨⟨true, false, false, false, 1000⟩, by simp, by decide⟩

/-! ## Melody playback loop structure (`alarm/control.py`,
`AlarmBuzzer.play_melody`, lines 86-106)

    while True:
      for note in melody.notes:
        with self._play_lock:
          if self._stop: self.tonal_buzzer.stop(); return
          <play or silence the note>
        time.sleep(note.duration * 0.8)
        with self._play_lock:
          self.tonal_buzzer.stop()
          if self._stop: return
        time.sleep(note.duration * 0.2)

Each note performs exactly two reads of the `_stop` flag (one per lock
section).  `flags j` models the value the `j`-th flag read observes, and a
fuel bound counts iterations of the outer `while True`. -/

/-- A parsed melody note (`alarm/audio.py`): an optional pitch (MIDI
number) and a duration in seconds (scaled to an integer; its value is
irrelevant to the control flow modelled here). -/
structure Note where
  pitch : Option Int
  duration : Int
deriving DecidableEq, Repr

/-- One pass of the `for note in melody.notes` body: consumes two stop-flag
reads per note starting at read index `k`; returns `none` when a read
observed the stop flag (so `play_melody` returned), or `some k'` with the
next read index when the pass finished all notes. -/
def melodyPass (flags : Nat → Bool) : List Note → Nat → Option Nat
  | [], k => some k
  | _ :: rest, k =>
    if flags k then none
    else if flags (k + 1) then none
    else melodyPass flags rest (k + 2)

/-- `play_melody` bounded to `fuel` iterations of the outer `while True`:
`some ()` when the call returned within the bound, `none` when it is still
looping after `fuel` iterations. -/
def playMelodyFuel : Nat → List Note → (Nat → Bool) → Nat → Option Unit
  | 0, _, _, _ => none
  | fuel + 1, notes, flags, k =>
    match melodyPass flags notes k with
    | none => some ()
    | some k' => playMelodyFuel fuel notes flags k'

/-- C3 (refuting): for the empty note sequence, `play_melody` never
returns, for any number of `while True` iterations and any behaviour of
the stop flag — the body of the `for` loop never runs, so no stop-flag
check is ever reached and the loop spins forever.  The spec requires the
call to complete immediately instead. -/
theorem play_melody_empty_never_returns (fuel : Nat) (flags : Nat → Bool) (k : Nat) :
    playMelodyFuel fuel [] flags k = none := by
  induction fuel generalizing k with
  | zero => rfl
  | succ fuel ih => simpa [playMelodyFuel, melodyPass] using ih k

/-! ## Buzzer stop / play mutual exclusion (`alarm/control.py`,
`AlarmBuzzer`, lines 86-129)

Every read or write of `_stop` and every hardware tone command happens
under the single mutex `_play_lock`, so a concurrent execution of `stop()`
and an in-progress play is a sequence of atomic critical sections.  The
critical sections an in-progress play can still execute are:

* `melodyCheckPlay` — lines 88-101: `if self._stop: self.tonal_buzzer.stop();
  return`, else sound the note's pitch (or silence when the pitch is None);
* `melodyGapCheck` — lines 102-105: `self.tonal_buzzer.stop(); if self._stop:
  return`;
* `beepCheck` — lines 116-119 of `thread_play_beep`: `if self._stop:
  self.tonal_buzzer.stop(); return`.

The intervening `time.sleep` calls touch neither the flag nor the
hardware. -/

/-- The buzzer state shared between `stop()` and a play: the `_stop` flag
and whether the hardware tone is currently sounding. -/
structure BuzzState where
  stopFlag : Bool
  sounding : Bool
deriving DecidableEq, Repr

/-- `AlarmBuzzer.stop` (lines 126-129): under the lock, silence the
hardware and set `_stop`. -/
def buzzerStop (_ : BuzzState) : BuzzState :=
  { stopFlag := true, sounding := false }

/-- The atomic critical sections an in-progress play can execute. -/
inductive CritSec where
  | melodyCheckPlay (hasPitch : Bool)
  | melodyGapCheck
  | beepCheck
deriving DecidableEq, Repr

/-- Effect of one critical section: the new state, and whether the play
function returned inside this section. -/
def critStep : CritSec → BuzzState → BuzzState × Bool
  | .melodyCheckPlay hasPitch, s =>
    if s.stopFlag then ({ s with sounding := false }, true)
    else ({ s with sounding := hasPitch }, false)
  | .melodyGapCheck, s =>
    ({ s with sounding := false }, s.stopFlag)
  | .beepCheck, s =>
    if s.stopFlag then ({ s with sounding := false }, true)
    else (s, false)

/-- Run the play's remaining critical sections in order, stopping at the
first one that returns. -/
def runPlay : List CritSec → BuzzState → BuzzState
  | [], s => s
  | c :: cs, s =>
    let r := critStep c s
    if r.2 then r.1 else runPlay cs r.1

/-- C4: `stop()` is idempotent; when it returns the hardware is silent; and
whenever it returns during an in-progress `play_melody` or
`thread_play_beep`, the very next critical section of that play returns
with the hardware still silent — so no subsequent step of the play ever
re-sounds the buzzer, whatever critical sections remained. -/
theorem buzzer_stop_idempotent_and_silences :
    (∀ s, buzzerStop (buzzerStop s) = buzzerStop s) ∧
    (∀ s, (buzzerStop s).sounding = false) ∧
    (∀ c s, critStep c (buzzerStop s) = (buzzerStop s, true)) ∧
    (∀ cs s, (runPlay cs (buzzerStop s)).sounding = false) := by
  refine ⟨fun s => rfl, fun s => rfl, fun c s => ?_, fun cs s => ?_⟩
  · cases c <;> simp [critStep, buzzerStop]
  · cases cs with
    | nil => rfl
    | cons c cs =>
      have h : critStep c (⟨true, false⟩ : BuzzState) = (⟨true, false⟩, true) := by
        cases c <;> simp [critStep]
      simp [runPlay, buzzerStop, h]

end RaspiAlarm
